import Mathlib

/-!
# e3db command line tool: command dispatch and streaming output

A shallow embedding of `main.go`.  The four command actions (`cmdRegister`,
`cmdList`, `cmdRead`, `cmdWrite`) and the client resolver (`getClient`) are
written as state-passing programs over a process state that records
everything observable from outside: the bytes written to standard output, the
bytes written to standard error, the calls made into the `e3db` package, and
(once `os.Exit` has run) the exit status.

The `e3db` package, `encoding/json` and the `log` timestamp are not part of
`main.go`; they enter as the fields of `Env` and `Client`.
-/

namespace E3dbCli

/-! ## Data model -/

/-- Record metadata (`e3db.Meta`).  `main.go` reads `RecordID` and `Type`. -/
structure Meta where
  RecordID : String
  Type_ : String
  WriterID : String
  UserID : String
deriving DecidableEq

/-- The payload of a record (`map[string]string`), as an association list. -/
abbrev Data := List (String × String)

/-- A record (`e3db.Record`): metadata and payload. -/
structure Record where
  Meta : Meta
  Data : Data
deriving DecidableEq

/-- Client configuration (`e3db.ClientOpts`).  `main.go` reads and writes only
`Logging`; the remaining fields are carried along. -/
structure ClientOpts where
  ClientID : String
  APIKeyID : String
  APISecret : String
  APIBaseURL : String
  Logging : Bool
deriving DecidableEq

/-- The query filter (`e3db.Q`) built by `cmdList`. -/
structure Q where
  ContentTypes : List String
  RecordIDs : List String
  WriterIDs : List String
  UserIDs : List String
  IncludeData : Bool
deriving DecidableEq

/-- The global options struct: the `--debug` flag and the `--profile` selector. -/
structure cliOptions where
  Logging : Bool
  Profile : String
deriving DecidableEq

/-- A call from `main.go` into the `e3db` package, with its arguments. -/
inductive Call where
  | GetDefaultClient
  | GetConfig (profile : String)
  | GetClient (opts : ClientOpts)
  | Query (q : Q)
  | CursorNext
  | CursorGet
  | NewRecord (recordType : String)
  | Write (record : Record)
  | Read (recordID : String)
  | ProfileExists (profile : String)
  | RegisterClient (email : String) (logging : Bool)
  | SaveConfig (profile : String) (info : ClientOpts)
deriving DecidableEq

/-- A client handle (`*e3db.Client`), given by what its methods answer.
* `Query q` stands for the cursor `client.Query(ctx, q)` returns: the results
  the cursor hands out, in order.  `cursor.Next()` is true as long as a result
  is left and moves to it; `cursor.Get()` then returns that result, a record
  or an error.
* `Write record` gives both of Go's results, the identifier and the error.
* `Read earlier recordID` gives the record or the error of one remote fetch:
  the fetch of `recordID` made after `earlier` fetches of this invocation.
  Every fetch is a call of its own, so two fetches of one identifier may be
  answered differently. -/
structure Client where
  Query : Q → List (Except String Record)
  NewRecord : String → Record
  Write : Record → String × Option String
  Read : Nat → String → Except String Record

/-- Everything `main.go` calls that lives outside it.  Errors are carried as
their `Error()` text.
* `logStamp`: the date and time prefix the standard logger writes;
* `showClient`: how `fmt.Println` renders a client handle;
* `MarshalIndent record prefix indent`: the bytes and the error of
  `json.MarshalIndent`;
* `Decode payload target`: `json.NewDecoder(strings.NewReader(payload)).Decode(&target)`,
  returning the target as the decoder leaves it and the error. -/
structure Env where
  logStamp : String
  showClient : Client → String
  GetDefaultClient : Except String Client
  GetConfig : String → Except String ClientOpts
  GetClient : ClientOpts → Except String Client
  ProfileExists : String → Bool
  RegisterClient : String → Bool → Except String ClientOpts
  SaveConfig : String → ClientOpts → Option String
  MarshalIndent : Record → String → String → String × Option String
  Decode : String → Data → Data × Option String

/-! ## Process state and the command monad -/

/-- What a running process has done so far. -/
structure Proc where
  stdout : String
  stderr : String
  calls : List Call
deriving DecidableEq

/-- A process that has done nothing yet. -/
def Proc.init : Proc := ⟨"", "", []⟩

/-- The result of running a piece of a command: it either returns a value and
goes on, or `os.Exit` has ended the process with a status. -/
inductive Res (α : Type) where
  | ok (a : α) (p : Proc)
  | exit (code : Nat) (p : Proc)

/-- The process state a result carries. -/
def Res.proc {α : Type} : Res α → Proc
  | .ok _ p => p
  | .exit _ p => p

/-- The exit status of a result: `0` when the command returned normally. -/
def Res.status {α : Type} : Res α → Nat
  | .ok _ _ => 0
  | .exit code _ => code

/-- A command: a program from the process state to a result. -/
def Cmd (α : Type) : Type := Proc → Res α

/-- Return a value without touching the process. -/
def Cmd.pure {α : Type} (a : α) : Cmd α := fun p => .ok a p

/-- Sequencing: nothing runs after `os.Exit`. -/
def Cmd.bind {α β : Type} (m : Cmd α) (f : α → Cmd β) : Cmd β := fun p =>
  match m p with
  | .ok a p1 => f a p1
  | .exit code p1 => .exit code p1

instance : Monad Cmd where
  pure := Cmd.pure
  bind := Cmd.bind

/-- Write to standard output (`fmt.Printf`, `fmt.Println`). -/
def printOut (s : String) : Cmd Unit := fun p =>
  .ok () { p with stdout := p.stdout ++ s }

/-- Write to standard error (`fmt.Fprintf(os.Stderr, ...)`). -/
def printErr (s : String) : Cmd Unit := fun p =>
  .ok () { p with stderr := p.stderr ++ s }

/-- Record a call into the `e3db` package. -/
def call (c : Call) : Cmd Unit := fun p =>
  .ok () { p with calls := p.calls ++ [c] }

/-- End the process (`os.Exit`). -/
def osExit {α : Type} (code : Nat) : Cmd α := fun p => .exit code p

/-- The line the standard logger writes for a message: the timestamp, the
message, and a newline unless the message already ends with one. -/
def logLine (env : Env) (msg : String) : String :=
  env.logStamp ++ msg ++ (if msg.data.getLast? = some '\n' then "" else "\n")

/-- Log the error to standard error and exit with status 1 (`log.Fatal`). -/
def logFatal {α : Type} (env : Env) (err : String) : Cmd α := do
  printErr (logLine env err)
  osExit 1

/-- Left-justify in a field of the given width (`%-40s` for width 40): the
whole string, then spaces up to the width. -/
def padRight (width : Nat) (s : String) : String :=
  s ++ String.mk (List.replicate (width - s.length) ' ')

/-! ## The client resolver -/

/-- The method `(o *cliOptions) getClient()`. -/
def getClient (env : Env) (o : cliOptions) : Cmd Client := do
  if o.Profile = "" then
    call .GetDefaultClient
    match env.GetDefaultClient with
    | .error err => logFatal env err
    | .ok client => pure client
  else
    call (.GetConfig o.Profile)
    match env.GetConfig o.Profile with
    | .error err => logFatal env err
    | .ok opts =>
      let opts := if o.Logging then { opts with Logging := true } else opts
      call (.GetClient opts)
      match env.GetClient opts with
      | .error err => logFatal env err
      | .ok client =>
        printOut (env.showClient client ++ "\n")
        pure client

/-! ## The commands -/

/-- The loop `for cursor.Next() { ... }` of `cmdList`, over the results the
cursor still has to hand out; `first` is the loop's flag of that name. -/
def listLoop (env : Env) (outputJSON : Bool) :
    List (Except String Record) → Bool → Cmd Unit
  | [], _ => call .CursorNext
  | item :: rest, first => do
    call .CursorNext
    call .CursorGet
    match item with
    | .error err =>
      printErr ("e3db-cli: ls: " ++ err ++ "\n")
      osExit 1
    | .ok record =>
      if outputJSON then
        if first then printOut "[\n" else printOut ",\n"
        let bytes := (env.MarshalIndent record "  " "  ").1
        printOut ("  " ++ bytes)
        listLoop env outputJSON rest false
      else
        printOut (padRight 40 record.Meta.RecordID ++ " " ++ record.Meta.Type_ ++ "\n")
        listLoop env outputJSON rest first

/-- The action of `cmdList` (`ls`). -/
def cmdList (env : Env) (o : cliOptions) (data outputJSON : Bool)
    (contentTypes recordIDs writerIDs userIDs : List String) : Cmd Unit := do
  let client ← getClient env o
  let q : Q := ⟨contentTypes, recordIDs, writerIDs, userIDs, data⟩
  call (.Query q)
  listLoop env outputJSON (client.Query q) true
  if outputJSON then
    printOut "\n]\n"

/-- The action of `cmdWrite` (`write TYPE DATA`). -/
def cmdWrite (env : Env) (o : cliOptions) (recordType data : String) : Cmd Unit := do
  let client ← getClient env o
  call (.NewRecord recordType)
  let record := client.NewRecord recordType
  let decoded := env.Decode data record.Data
  let record : Record := { record with Data := decoded.1 }
  match decoded.2 with
  | some err => printErr ("e3db-cli: write: " ++ err ++ "\n")
  | none => pure ()
  call (.Write record)
  let written := client.Write record
  match written.2 with
  | some err => printErr ("e3db-cli: write: " ++ err ++ "\n")
  | none => pure ()
  printOut (written.1 ++ "\n")

/-- The loop `for _, recordID := range *recordIDs { ... }` of `cmdRead`, over
the identifiers still to be read; `earlier` counts the fetches already made. -/
def readLoop (env : Env) (client : Client) : Nat → List String → Cmd Unit
  | _, [] => pure ()
  | earlier, recordID :: rest => do
    call (.Read recordID)
    match client.Read earlier recordID with
    | .error err => logFatal env err
    | .ok record =>
      let marshalled := env.MarshalIndent record "" "  "
      match marshalled.2 with
      | some err => logFatal env err
      | none =>
        printOut (marshalled.1 ++ "\n")
        readLoop env client (earlier + 1) rest

/-- The action of `cmdRead` (`read RECORD_ID...`). -/
def cmdRead (env : Env) (o : cliOptions) (recordIDs : List String) : Cmd Unit := do
  let client ← getClient env o
  readLoop env client 0 recordIDs

/-- The action of `cmdRegister` (`register EMAIL`). -/
def cmdRegister (env : Env) (o : cliOptions) (email : String) : Cmd Unit := do
  call (.ProfileExists o.Profile)
  if env.ProfileExists o.Profile then
    let name := if o.Profile ≠ "" then o.Profile else "(default)"
    printErr ("e3db-cli: register: profile " ++ name ++ " already registered\n")
    osExit 1
  call (.RegisterClient email o.Logging)
  match env.RegisterClient email o.Logging with
  | .error err =>
    printErr ("e3db-cli: register: " ++ err ++ "\n")
    osExit 1
  | .ok info =>
    call (.SaveConfig o.Profile info)
    match env.SaveConfig o.Profile info with
    | some err =>
      printErr ("e3db-cli: register: " ++ err ++ "\n")
      osExit 1
    | none => pure ()

/-! ## Cursor contents -/

/-- The records a cursor hands out before its first error: the records the
loop of `cmdList` gets to see. -/
def yielded : List (Except String Record) → List Record
  | [] => []
  | .ok record :: rest => record :: yielded rest
  | .error _ :: _ => []

/-! ## Sample collaborators -/

/-- A stored record with identifier `A`. -/
def noteA : Record := ⟨⟨"A", "note", "writer-1", "writer-1"⟩, [("title", "first")]⟩

/-- A stored record with a long identifier. -/
def noteB : Record :=
  ⟨⟨"0f1e2d3c-4b5a-6978-8796-a5b4c3d2e1f0-extended", "memo", "writer-1", "writer-1"⟩, []⟩

/-- A client whose query finds two records, which stores every record it is
given, and which can read only the record `A`, at every fetch. -/
def sampleClient : Client where
  Query := fun _ => [.ok noteA, .ok noteB]
  NewRecord := fun recordType => ⟨⟨"", recordType, "writer-1", "writer-1"⟩, []⟩
  Write := fun _ => ("id-new", none)
  Read := fun _ recordID =>
    if recordID = "A" then .ok noteA else .error "record not found"

/-- A client that can read the record `A` once: its first fetch finds it, no
later fetch does. -/
def readOnceClient : Client :=
  { sampleClient with
    Read := fun earlier recordID =>
      if earlier = 0 ∧ recordID = "A" then .ok noteA else .error "record not found" }

/-- A record the sample JSON encoder of `pickyEnv` cannot encode. -/
def noteX : Record := ⟨⟨"X", "note", "writer-1", "writer-1"⟩, []⟩

/-- A client whose query finds three records, the second being `noteX`. -/
def threeClient : Client :=
  { sampleClient with Query := fun _ => [.ok noteA, .ok noteX, .ok noteB] }

/-- A client whose query finds nothing. -/
def emptyClient : Client := { sampleClient with Query := fun _ => [] }

/-- A client whose cursor fails on its second element. -/
def brokenCursorClient : Client :=
  { sampleClient with Query := fun _ => [.ok noteA, .error "connection reset", .ok noteB] }

/-- A client whose writes are refused. -/
def readOnlyClient : Client :=
  { sampleClient with Write := fun _ => ("", some "write refused") }

/-- A stored configuration with logging off. -/
def sampleOpts : ClientOpts := ⟨"client-1", "key-1", "secret-1", "https://api.example", false⟩

/-- An environment with one stored profile, `dev`.  Its decoder accepts the
empty object; on the object with a string member `a` and an array member `b`
it does what `encoding/json` does for a `map[string]string` target (the member
`a` is stored, the array cannot be stored in a string so `b` is left at the
empty string, decoding goes on to the end and the type error is returned); and
it rejects everything else without touching the target. -/
def sampleEnv : Env where
  logStamp := "2017/06/01 12:00:00 "
  showClient := fun _ => "&\x7bclient\x7d"
  GetDefaultClient := .ok sampleClient
  GetConfig := fun profile =>
    if profile = "dev" then .ok sampleOpts else .error "profile not found"
  GetClient := fun _ => .ok sampleClient
  ProfileExists := fun profile => decide (profile = "dev")
  RegisterClient := fun _ _ => .ok sampleOpts
  SaveConfig := fun _ _ => none
  MarshalIndent := fun record linePrefix _ =>
    ("\x7b\n" ++ linePrefix ++ "  \"record_id\": \"" ++ record.Meta.RecordID ++ "\"\n"
      ++ linePrefix ++ "\x7d", none)
  Decode := fun payload target =>
    if payload = "\x7b\x7d" then (target, none)
    else if payload = "\x7b\"a\":\"x\",\"b\":[]\x7d" then
      (target ++ [("a", "x"), ("b", "")],
        some "json: cannot unmarshal array into Go value of type string")
    else (target, some "unexpected end of JSON input")

/-- The sample environment with a JSON encoder that fails. -/
def encodeFailsEnv : Env :=
  { sampleEnv with MarshalIndent := fun _ _ _ => ("", some "json: unsupported value") }

/-- The sample environment with a profile store that cannot be written. -/
def saveFailsEnv : Env :=
  { sampleEnv with SaveConfig := fun _ _ => some "permission denied" }

/-- The sample environment with a registration service that refuses. -/
def registerFailsEnv : Env :=
  { sampleEnv with RegisterClient := fun _ _ => .error "permission denied" }

/-- The sample environment whose default client can read `A` once. -/
def readOnceEnv : Env := { sampleEnv with GetDefaultClient := .ok readOnceClient }

/-- The sample environment with three records to list and a JSON encoder that
fails on the record `X`, returning no bytes with the error. -/
def pickyEnv : Env :=
  { sampleEnv with
    GetDefaultClient := .ok threeClient
    MarshalIndent := fun record linePrefix indent =>
      if record.Meta.RecordID = "X" then ("", some "json: unsupported value")
      else sampleEnv.MarshalIndent record linePrefix indent }

/-- The sample environment whose default client finds no records. -/
def emptyEnv : Env := { sampleEnv with GetDefaultClient := .ok emptyClient }

/-- The sample environment whose default client has a failing cursor. -/
def brokenCursorEnv : Env := { sampleEnv with GetDefaultClient := .ok brokenCursorClient }

/-- The sample environment whose default client refuses writes. -/
def readOnlyEnv : Env := { sampleEnv with GetDefaultClient := .ok readOnlyClient }

/-! # Theorems -/

/-! ## Running the monad -/

theorem bind_run {α β : Type} (m : Cmd α) (f : α → Cmd β) (p : Proc) :
    (m >>= f) p = match m p with
      | .ok a p1 => f a p1
      | .exit code p1 => .exit code p1 := rfl

theorem pure_run {α : Type} (a : α) (p : Proc) : (pure a : Cmd α) p = .ok a p := rfl

theorem logging_override_eq (opts : ClientOpts) (flag : Bool) :
    (if flag = true then { opts with Logging := true } else opts)
      = { opts with Logging := opts.Logging || flag } := by
  cases opts; cases flag <;> simp

/-! ## Joining strings -/

theorem join_cons (a : String) (l : List String) :
    String.join (a :: l) = a ++ String.join l := by
  have h : ∀ (l : List String) (acc : String),
      List.foldl (fun r s => r ++ s) acc l = acc ++ List.foldl (fun r s => r ++ s) "" l := by
    intro l
    induction l with
    | nil => intro acc; simp
    | cons b l ih =>
      intro acc
      simp only [List.foldl_cons]
      rw [ih (acc ++ b), ih ("" ++ b)]
      simp [String.append_assoc]
  simp only [String.join, List.foldl_cons]
  rw [h l ("" ++ a)]
  simp

theorem join_nil : String.join [] = "" := rfl

theorem intercalate_go (sep : String) (l : List String) (acc : String) :
    String.intercalate.go acc sep l = acc ++ String.join (l.map fun x => sep ++ x) := by
  induction l generalizing acc with
  | nil => simp [String.intercalate.go, join_nil]
  | cons a l ih =>
    simp only [String.intercalate.go, ih, List.map_cons, join_cons]
    simp [String.append_assoc]

theorem intercalate_cons (sep a : String) (l : List String) :
    String.intercalate sep (a :: l) = a ++ String.join (l.map fun x => sep ++ x) := by
  simp [String.intercalate, intercalate_go]

theorem append_left_cancel (s t u : String) (h : s ++ t = s ++ u) : t = u := by
  have hd := congrArg String.data h
  simp only [String.data_append] at hd
  exact String.ext (List.append_cancel_left hd)

/-! ## The loop of `cmdList` -/

theorem flatten_replicate_comm (n : Nat) (l : List Call) :
    (List.replicate n l).flatten ++ l = l ++ (List.replicate n l).flatten := by
  induction n with
  | zero => simp
  | succ n ih => simp [List.replicate_succ, ih]

theorem listLoop_nil (env : Env) (json first : Bool) (p : Proc) :
    listLoop env json [] first p = .ok () ⟨p.stdout, p.stderr, p.calls ++ [.CursorNext]⟩ := by
  simp [listLoop, call]

theorem listLoop_error (env : Env) (json first : Bool) (e : String)
    (post : List (Except String Record)) (p : Proc) :
    listLoop env json (.error e :: post) first p =
      .exit 1 ⟨p.stdout, p.stderr ++ ("e3db-cli: ls: " ++ e ++ "\n"),
        p.calls ++ [.CursorNext, .CursorGet]⟩ := by
  simp [listLoop, call, bind_run, printErr, osExit]

theorem listLoop_json_ok (env : Env) (first : Bool) (r : Record)
    (rest : List (Except String Record)) (p : Proc) :
    listLoop env true (.ok r :: rest) first p =
      listLoop env true rest false
        ⟨p.stdout ++ ((if first then "[\n" else ",\n")
            ++ ("  " ++ (env.MarshalIndent r "  " "  ").1)),
          p.stderr, p.calls ++ [.CursorNext, .CursorGet]⟩ := by
  cases first <;> simp [listLoop, call, bind_run, printOut, String.append_assoc]

theorem listLoop_table_ok (env : Env) (first : Bool) (r : Record)
    (rest : List (Except String Record)) (p : Proc) :
    listLoop env false (.ok r :: rest) first p =
      listLoop env false rest first
        ⟨p.stdout ++ (r.Meta.RecordID
            ++ String.mk (List.replicate (40 - r.Meta.RecordID.length) ' ')
            ++ " " ++ r.Meta.Type_ ++ "\n"),
          p.stderr, p.calls ++ [.CursorNext, .CursorGet]⟩ := by
  simp [listLoop, call, bind_run, printOut, padRight]

theorem listLoop_json_rest (env : Env) (rs : List Record)
    (tail : List (Except String Record)) (p : Proc) :
    listLoop env true (rs.map .ok ++ tail) false p =
      listLoop env true tail false
        ⟨p.stdout ++ String.join (rs.map fun x =>
            ",\n" ++ ("  " ++ (env.MarshalIndent x "  " "  ").1)),
          p.stderr,
          p.calls ++ (List.replicate rs.length [Call.CursorNext, Call.CursorGet]).flatten⟩ := by
  induction rs generalizing p with
  | nil => simp [join_nil]
  | cons r rs ih =>
    simp only [List.map_cons, List.cons_append, listLoop_json_ok, ih, join_cons,
      List.length_cons, List.replicate_succ, List.flatten_cons]
    simp [String.append_assoc]

theorem listLoop_table_rest (env : Env) (first : Bool) (rs : List Record)
    (tail : List (Except String Record)) (p : Proc) :
    listLoop env false (rs.map .ok ++ tail) first p =
      listLoop env false tail first
        ⟨p.stdout ++ String.join (rs.map fun r => r.Meta.RecordID
            ++ String.mk (List.replicate (40 - r.Meta.RecordID.length) ' ')
            ++ " " ++ r.Meta.Type_ ++ "\n"),
          p.stderr,
          p.calls ++ (List.replicate rs.length [Call.CursorNext, Call.CursorGet]).flatten⟩ := by
  induction rs generalizing p with
  | nil => simp [join_nil]
  | cons r rs ih =>
    simp only [List.map_cons, List.cons_append, listLoop_table_ok, ih, join_cons,
      List.length_cons, List.replicate_succ, List.flatten_cons]
    simp [String.append_assoc]

/-- Every cursor sequence is its yielded records followed by nothing or by a
sequence that starts with an error. -/
theorem yielded_split (items : List (Except String Record)) :
    items = (yielded items).map .ok ∨
      ∃ e post, items = (yielded items).map .ok ++ .error e :: post := by
  induction items with
  | nil => left; rfl
  | cons item rest ih =>
    cases item with
    | error e => right; exact ⟨e, rest, rfl⟩
    | ok r =>
      rcases ih with h | ⟨e, post, h⟩
      · left
        simp only [yielded, List.map_cons]
        rw [← h]
      · right
        refine ⟨e, post, ?_⟩
        simp only [yielded, List.map_cons, List.cons_append]
        rw [← h]

theorem cmdList_run (env : Env) (o : cliOptions) (data json : Bool)
    (cts rids wids uids : List String) (client : Client) (p1 : Proc)
    (hc : getClient env o Proc.init = .ok client p1) :
    cmdList env o data json cts rids wids uids Proc.init =
      match listLoop env json (client.Query ⟨cts, rids, wids, uids, data⟩) true
          ⟨p1.stdout, p1.stderr, p1.calls ++ [.Query ⟨cts, rids, wids, uids, data⟩]⟩ with
      | .ok _ p2 => .ok () (if json then ⟨p2.stdout ++ "\n]\n", p2.stderr, p2.calls⟩ else p2)
      | .exit code p2 => .exit code p2 := by
  simp only [cmdList, bind_run, hc, call]
  cases listLoop env json (client.Query ⟨cts, rids, wids, uids, data⟩) true
      ⟨p1.stdout, p1.stderr, p1.calls ++ [.Query ⟨cts, rids, wids, uids, data⟩]⟩ with
  | ok a p2 => cases json <;> simp [printOut, pure_run]
  | exit code p2 => simp

/-- The run of `cmdList` in JSON mode over a cursor that yields the records
`r`, `rs` and no error. -/
theorem cmdList_json_run (env : Env) (o : cliOptions) (data : Bool)
    (cts rids wids uids : List String) (client : Client) (p1 : Proc)
    (r : Record) (rs : List Record)
    (hc : getClient env o Proc.init = .ok client p1)
    (hq : client.Query ⟨cts, rids, wids, uids, data⟩ = (r :: rs).map .ok) :
    cmdList env o data true cts rids wids uids Proc.init =
      .ok () ⟨p1.stdout ++ ("[\n" ++ ("  " ++ (env.MarshalIndent r "  " "  ").1)
            ++ String.join (rs.map fun x =>
                ",\n" ++ ("  " ++ (env.MarshalIndent x "  " "  ").1))
            ++ "\n]\n"),
        p1.stderr,
        p1.calls ++ Call.Query ⟨cts, rids, wids, uids, data⟩ ::
          ((List.replicate (rs.length + 1) [Call.CursorNext, Call.CursorGet]).flatten
            ++ [Call.CursorNext])⟩ := by
  rw [cmdList_run env o data true cts rids wids uids client p1 hc, hq]
  have h := listLoop_json_rest env rs []
  simp only [List.append_nil] at h
  simp only [List.map_cons, listLoop_json_ok, h, listLoop_nil]
  simp [String.append_assoc, List.replicate_succ]

/-! ## The loop of `cmdRead` -/

theorem readLoop_ok (env : Env) (client : Client) (earlier : Nat) (recordID : String)
    (record : Record) (rest : List String)
    (h1 : client.Read earlier recordID = .ok record)
    (h2 : (env.MarshalIndent record "" "  ").2 = none) (p : Proc) :
    readLoop env client earlier (recordID :: rest) p =
      readLoop env client (earlier + 1) rest
        ⟨p.stdout ++ ((env.MarshalIndent record "" "  ").1 ++ "\n"), p.stderr,
          p.calls ++ [.Read recordID]⟩ := by
  simp [readLoop, bind_run, call, h1, h2, printOut]

theorem readLoop_fetched (env : Env) (client : Client) (done : List (String × Record))
    (rest : List String) (earlier : Nat)
    (h : ∀ i recordID record, done[i]? = some (recordID, record) →
      client.Read (earlier + i) recordID = .ok record ∧
        (env.MarshalIndent record "" "  ").2 = none) (p : Proc) :
    readLoop env client earlier (done.map Prod.fst ++ rest) p =
      readLoop env client (earlier + done.length) rest
        ⟨p.stdout ++ String.join (done.map fun x =>
            (env.MarshalIndent x.2 "" "  ").1 ++ "\n"),
          p.stderr, p.calls ++ done.map fun x => Call.Read x.1⟩ := by
  induction done generalizing earlier p with
  | nil => simp [join_nil]
  | cons x done ih =>
    have h0 := h 0 x.1 x.2 (by simp)
    have hrest : ∀ i recordID record, done[i]? = some (recordID, record) →
        client.Read (earlier + 1 + i) recordID = .ok record ∧
          (env.MarshalIndent record "" "  ").2 = none := by
      intro i recordID record hi
      have := h (i + 1) recordID record (by simpa using hi)
      rw [show earlier + 1 + i = earlier + (i + 1) by omega]
      exact this
    rw [List.map_cons, List.cons_append,
      readLoop_ok env client earlier x.1 x.2 _ h0.1 h0.2, ih (earlier + 1) hrest]
    rw [show earlier + 1 + done.length = earlier + (x :: done).length by
      simp only [List.length_cons]; omega]
    simp [String.append_assoc, join_cons]

theorem readLoop_failure (env : Env) (client : Client) (earlier : Nat) (b e : String)
    (post : List String)
    (hb : client.Read earlier b = .error e ∨
      ∃ record, client.Read earlier b = .ok record ∧
        (env.MarshalIndent record "" "  ").2 = some e) (p : Proc) :
    readLoop env client earlier (b :: post) p =
      .exit 1 ⟨p.stdout, p.stderr ++ logLine env e, p.calls ++ [.Read b]⟩ := by
  rcases hb with h | ⟨record, h1, h2⟩
  · simp [readLoop, bind_run, call, h, logFatal, printErr, osExit]
  · simp [readLoop, bind_run, call, h1, h2, logFatal, printErr, osExit]

/-! ## The body of `cmdWrite` -/

theorem cmdWrite_run (env : Env) (o : cliOptions) (recordType payload : String)
    (client : Client) (p1 : Proc) (record : Record) (d : Data) (derr : Option String)
    (id : String) (werr : Option String)
    (hc : getClient env o Proc.init = .ok client p1)
    (hrec : client.NewRecord recordType = record)
    (hdec : env.Decode payload record.Data = (d, derr))
    (hw : client.Write { record with Data := d } = (id, werr)) :
    cmdWrite env o recordType payload Proc.init =
      .ok () ⟨p1.stdout ++ (id ++ "\n"),
        p1.stderr
          ++ (match derr with
              | some err => "e3db-cli: write: " ++ err ++ "\n"
              | none => "")
          ++ (match werr with
              | some err => "e3db-cli: write: " ++ err ++ "\n"
              | none => ""),
        p1.calls ++ [.NewRecord recordType, .Write { record with Data := d }]⟩ := by
  simp only [cmdWrite, bind_run, hc, call, hrec, hdec, hw]
  cases derr <;> cases werr <;> simp [printErr, printOut, pure_run, bind_run, call]

theorem listLoop_table_stdout (env : Env) (first : Bool)
    (items : List (Except String Record)) (p : Proc) :
    (listLoop env false items first p).proc.stdout =
      p.stdout ++ String.join ((yielded items).map fun r => r.Meta.RecordID
        ++ String.mk (List.replicate (40 - r.Meta.RecordID.length) ' ')
        ++ " " ++ r.Meta.Type_ ++ "\n") := by
  induction items generalizing p with
  | nil => simp [listLoop_nil, yielded, Res.proc, join_nil]
  | cons item rest ih =>
    cases item with
    | error e => simp [listLoop_error, yielded, Res.proc, join_nil]
    | ok r =>
      rw [listLoop_table_ok, ih]
      simp [yielded, join_cons, String.append_assoc]

/-! ## The registration guard -/

/-- C1: when the profile-existence check for the selector answers true, the
register command ends with exit status 1 after one diagnostic line that names
the profile (the selector, or `(default)` for the empty selector); the only
call it has made is the existence check, so neither remote registration nor
`SaveConfig` is ever invoked.  This holds for every email, logging flag and
selector. -/
theorem cmdRegister_existing_profile_refused (env : Env) (o : cliOptions) (email : String)
    (h : env.ProfileExists o.Profile = true) :
    cmdRegister env o email Proc.init =
        .exit 1 ⟨"",
          "e3db-cli: register: profile "
            ++ (if o.Profile = "" then "(default)" else o.Profile)
            ++ " already registered\n",
          [.ProfileExists o.Profile]⟩
      ∧ (∀ e l, Call.RegisterClient e l ∉ (cmdRegister env o email Proc.init).proc.calls)
      ∧ (∀ pr info, Call.SaveConfig pr info ∉ (cmdRegister env o email Proc.init).proc.calls)
      ∧ (cmdRegister env o email Proc.init).status ≠ 0 := by
  have hrun : cmdRegister env o email Proc.init =
      .exit 1 ⟨"",
        "e3db-cli: register: profile "
          ++ (if o.Profile = "" then "(default)" else o.Profile)
          ++ " already registered\n",
        [.ProfileExists o.Profile]⟩ := by
    simp [cmdRegister, bind_run, pure_run, call, printErr, osExit, Proc.init, h]
  rw [hrun]
  simp [Res.proc, Res.status]

/-- C1, at the stored profile `dev` of the sample environment. -/
theorem cmdRegister_existing_profile_refused_witness :
    cmdRegister sampleEnv ⟨true, "dev"⟩ "dev@example.com" Proc.init =
      .exit 1 ⟨"", "e3db-cli: register: profile dev already registered\n",
        [.ProfileExists "dev"]⟩ :=
  (cmdRegister_existing_profile_refused sampleEnv ⟨true, "dev"⟩ "dev@example.com" rfl).1

/-- C6, as the code has it: when the existence check passes and remote
registration succeeds but `SaveConfig` fails, the process ends with exit status
1 after the three calls, and the one diagnostic line is the command prefix
followed by the error text.  A failed registration with the same error text
writes the same line: the message does not name the step. -/
theorem cmdRegister_save_failure (env : Env) (o : cliOptions) (email : String)
    (info : ClientOpts) (err : String)
    (hpre : env.ProfileExists o.Profile = false)
    (hreg : env.RegisterClient email o.Logging = .ok info)
    (hsave : env.SaveConfig o.Profile info = some err) :
    cmdRegister env o email Proc.init =
        .exit 1 ⟨"", "e3db-cli: register: " ++ err ++ "\n",
          [.ProfileExists o.Profile, .RegisterClient email o.Logging,
           .SaveConfig o.Profile info]⟩
      ∧ ∀ other : Env, other.ProfileExists o.Profile = false →
          other.RegisterClient email o.Logging = .error err →
          cmdRegister other o email Proc.init =
            .exit 1 ⟨"", "e3db-cli: register: " ++ err ++ "\n",
              [.ProfileExists o.Profile, .RegisterClient email o.Logging]⟩ := by
  constructor
  · simp [cmdRegister, bind_run, pure_run, call, printErr, osExit, Proc.init, hpre, hreg, hsave]
  · intro other h1 h2
    simp [cmdRegister, bind_run, pure_run, call, printErr, osExit, Proc.init, h1, h2]

/-- C6 as amended, where the profile store of the sample environment cannot be
written. -/
theorem cmdRegister_save_failure_witness :
    cmdRegister saveFailsEnv ⟨false, ""⟩ "new@example.com" Proc.init =
      .exit 1 ⟨"", "e3db-cli: register: permission denied\n",
        [.ProfileExists "", .RegisterClient "new@example.com" false,
         .SaveConfig "" sampleOpts]⟩ :=
  (cmdRegister_save_failure saveFailsEnv ⟨false, ""⟩ "new@example.com" sampleOpts
    "permission denied" rfl rfl rfl).1

/-- C6 fails as stated: a run in which registration succeeds and the save
fails, and a run in which registration itself fails with the same error text,
both exit with status 1 and write the very same diagnostic, so the message of
the first does not point at the save step. -/
theorem cmdRegister_save_message_not_distinct :
    (cmdRegister saveFailsEnv ⟨false, ""⟩ "new@example.com" Proc.init).proc.calls =
        [.ProfileExists "", .RegisterClient "new@example.com" false,
         .SaveConfig "" sampleOpts]
      ∧ (cmdRegister registerFailsEnv ⟨false, ""⟩ "new@example.com" Proc.init).proc.calls =
        [.ProfileExists "", .RegisterClient "new@example.com" false]
      ∧ (cmdRegister saveFailsEnv ⟨false, ""⟩ "new@example.com" Proc.init).proc.stderr =
        "e3db-cli: register: permission denied\n"
      ∧ (cmdRegister registerFailsEnv ⟨false, ""⟩ "new@example.com" Proc.init).proc.stderr =
        (cmdRegister saveFailsEnv ⟨false, ""⟩ "new@example.com" Proc.init).proc.stderr := by
  decide

/-! ## The client resolver -/

/-- C7: for every non-empty profile selector, every configuration loaded for it
and every value of the logging flag, the only calls are the load and then the
construction of the handle, and the handle is constructed from the loaded
configuration with `Logging` replaced by (loaded `Logging` or the flag) and
every other field as loaded.  The resolver returns that handle (after echoing
it), or logs the construction error and exits with status 1. -/
theorem getClient_logging_override (env : Env) (o : cliOptions) (opts : ClientOpts)
    (hne : o.Profile ≠ "") (hcfg : env.GetConfig o.Profile = .ok opts) :
    getClient env o Proc.init =
      match env.GetClient { opts with Logging := opts.Logging || o.Logging } with
      | .ok client =>
        .ok client ⟨env.showClient client ++ "\n", "",
          [.GetConfig o.Profile,
           .GetClient { opts with Logging := opts.Logging || o.Logging }]⟩
      | .error err =>
        .exit 1 ⟨"", logLine env err,
          [.GetConfig o.Profile,
           .GetClient { opts with Logging := opts.Logging || o.Logging }]⟩ := by
  simp only [getClient, bind_run, call, Proc.init, if_neg hne, hcfg, logging_override_eq]
  cases env.GetClient { opts with Logging := opts.Logging || o.Logging } <;>
    simp [bind_run, pure_run, logFatal, printErr, printOut, osExit]

/-- C7, for the profile `dev` (stored with logging off) and the flag set: the
handle is built from the stored configuration with logging on. -/
theorem getClient_logging_override_witness :
    getClient sampleEnv ⟨true, "dev"⟩ Proc.init =
      .ok sampleClient ⟨"&\x7bclient\x7d\n", "",
        [.GetConfig "dev",
         .GetClient ⟨"client-1", "key-1", "secret-1", "https://api.example", true⟩]⟩ :=
  getClient_logging_override sampleEnv ⟨true, "dev"⟩ sampleOpts (by decide) rfl

/-! ## The streaming renderer -/

/-- C2, what the code does: for a cursor that yields nothing, the ls command in
JSON mode returns normally having written, after the output of the client
resolver, an empty line and a line `]`.  The opening `[` is written only
before a first element, so the output is not `[` followed by `]`. -/
theorem cmdList_json_empty_cursor (env : Env) (o : cliOptions) (data : Bool)
    (cts rids wids uids : List String) (client : Client) (p1 : Proc)
    (hc : getClient env o Proc.init = .ok client p1)
    (hq : client.Query ⟨cts, rids, wids, uids, data⟩ = []) :
    cmdList env o data true cts rids wids uids Proc.init =
        .ok () ⟨p1.stdout ++ "\n]\n", p1.stderr,
          p1.calls ++ [.Query ⟨cts, rids, wids, uids, data⟩, .CursorNext]⟩
      ∧ (cmdList env o data true cts rids wids uids Proc.init).proc.stdout
          ≠ p1.stdout ++ "[\n]\n" := by
  have hrun : cmdList env o data true cts rids wids uids Proc.init =
      .ok () ⟨p1.stdout ++ "\n]\n", p1.stderr,
        p1.calls ++ [.Query ⟨cts, rids, wids, uids, data⟩, .CursorNext]⟩ := by
    rw [cmdList_run env o data true cts rids wids uids client p1 hc, hq]
    simp [listLoop_nil]
  refine ⟨hrun, ?_⟩
  rw [hrun]
  intro h
  have h2 := append_left_cancel _ _ _ h
  revert h2
  decide

/-- C2, at a client that finds no records: the process writes `\n]\n`. -/
theorem cmdList_json_empty_cursor_witness :
    cmdList emptyEnv ⟨false, ""⟩ false true [] [] [] [] Proc.init =
      .ok () ⟨"\n]\n", "",
        [.GetDefaultClient, .Query ⟨[], [], [], [], false⟩, .CursorNext]⟩ :=
  (cmdList_json_empty_cursor emptyEnv ⟨false, ""⟩ false [] [] [] [] emptyClient
    ⟨"", "", [.GetDefaultClient]⟩ rfl rfl).1

/-- C3, what the code does: the error of `json.MarshalIndent` is dropped.  For
every cursor that yields records only, among them a record `bad` for which the
encoder returns an error (together with some bytes, none in Go), the ls command
in JSON mode returns normally, standard error untouched, having written, after
the output of the client resolver: the line `[`, one element per record in
cursor order with a comma and newline between neighbours, and the closing line
`]`; the element of every record is two spaces and the bytes the encoder
returned, so the element of `bad` is two spaces and those bytes, not an
encoding of `bad`. -/
theorem cmdList_json_encoding_error_dropped (env : Env) (o : cliOptions) (data : Bool)
    (cts rids wids uids : List String) (client : Client) (p1 : Proc)
    (pre : List Record) (bad : Record) (post : List Record) (bytes err : String)
    (hc : getClient env o Proc.init = .ok client p1)
    (hq : client.Query ⟨cts, rids, wids, uids, data⟩ = (pre ++ bad :: post).map .ok)
    (hbad : env.MarshalIndent bad "  " "  " = (bytes, some err)) :
    cmdList env o data true cts rids wids uids Proc.init =
      .ok () ⟨p1.stdout ++ ("[\n"
            ++ String.intercalate ",\n"
                (pre.map (fun x => "  " ++ (env.MarshalIndent x "  " "  ").1)
                  ++ ("  " ++ bytes)
                    :: post.map (fun x => "  " ++ (env.MarshalIndent x "  " "  ").1))
            ++ "\n]\n"),
        p1.stderr,
        p1.calls ++ Call.Query ⟨cts, rids, wids, uids, data⟩ ::
          ((List.replicate (pre ++ bad :: post).length
              [Call.CursorNext, Call.CursorGet]).flatten
            ++ [Call.CursorNext])⟩ := by
  have hbytes : (env.MarshalIndent bad "  " "  ").1 = bytes := by rw [hbad]
  cases pre with
  | nil =>
    rw [cmdList_json_run env o data cts rids wids uids client p1 bad post hc
      (by simpa using hq)]
    simp [intercalate_cons, hbytes, List.map_map, Function.comp_def, String.append_assoc]
  | cons r pre =>
    rw [cmdList_json_run env o data cts rids wids uids client p1 r (pre ++ bad :: post) hc
      (by simpa using hq)]
    simp [intercalate_cons, hbytes, List.map_map, Function.comp_def, String.append_assoc]

/-- C3, at a cursor that yields `A`, `X`, `B` where the encoder fails on `X`:
the run ends normally with three elements of which the second is bare
indentation. -/
theorem cmdList_json_encoding_error_dropped_witness :
    cmdList pickyEnv ⟨false, ""⟩ false true [] [] [] [] Proc.init =
      .ok () ⟨"[\n  \x7b\n    \"record_id\": \"A\"\n  \x7d,\n  ,\n  \x7b\n    \"record_id\": \"0f1e2d3c-4b5a-6978-8796-a5b4c3d2e1f0-extended\"\n  \x7d\n]\n",
        "",
        [.GetDefaultClient, .Query ⟨[], [], [], [], false⟩, .CursorNext, .CursorGet,
         .CursorNext, .CursorGet, .CursorNext, .CursorGet, .CursorNext]⟩ :=
  cmdList_json_encoding_error_dropped pickyEnv ⟨false, ""⟩ false [] [] [] [] threeClient
    ⟨"", "", [.GetDefaultClient]⟩ [noteA] noteX [noteB] "" "json: unsupported value"
    rfl rfl rfl

/-- C8: for every cursor sequence, the ls command in table mode writes, after
the output of the client resolver, one line per record the cursor yields, in
cursor order and nothing else: the record's whole identifier, spaces up to
column 40 (none when the identifier is 40 characters or longer), one more
space, the record type and a newline. -/
theorem cmdList_table_lines (env : Env) (o : cliOptions) (data : Bool)
    (cts rids wids uids : List String) (client : Client) (p1 : Proc)
    (hc : getClient env o Proc.init = .ok client p1) :
    (cmdList env o data false cts rids wids uids Proc.init).proc.stdout =
      p1.stdout ++ String.join
        ((yielded (client.Query ⟨cts, rids, wids, uids, data⟩)).map fun r =>
          r.Meta.RecordID
            ++ String.mk (List.replicate (40 - r.Meta.RecordID.length) ' ')
            ++ " " ++ r.Meta.Type_ ++ "\n") := by
  rw [cmdList_run env o data false cts rids wids uids client p1 hc]
  have h := listLoop_table_stdout env true (client.Query ⟨cts, rids, wids, uids, data⟩)
    ⟨p1.stdout, p1.stderr, p1.calls ++ [.Query ⟨cts, rids, wids, uids, data⟩]⟩
  revert h
  cases listLoop env false (client.Query ⟨cts, rids, wids, uids, data⟩) true
      ⟨p1.stdout, p1.stderr, p1.calls ++ [.Query ⟨cts, rids, wids, uids, data⟩]⟩ <;>
    simp [Res.proc]

/-- C8, at a client whose query finds a short and a long identifier. -/
theorem cmdList_table_lines_witness :
    (cmdList sampleEnv ⟨false, ""⟩ false false [] [] [] [] Proc.init).proc.stdout =
      "A                                        note\n0f1e2d3c-4b5a-6978-8796-a5b4c3d2e1f0-extended memo\n" :=
  cmdList_table_lines sampleEnv ⟨false, ""⟩ false [] [] [] [] sampleClient
    ⟨"", "", [.GetDefaultClient]⟩ rfl

/-- C9: for every cursor sequence whose first error comes after the records
`pre` (so at position `pre.length + 1`), the ls command ends with exit status
1; standard error gets the one line `e3db-cli: ls: ` with the error text;
standard output holds exactly the rendering of `pre` (in JSON mode the opened
array without a closing `]`, and nothing at all when `pre` is empty; in table
mode the lines of `pre`); and the cursor has been advanced `pre.length + 1`
times, not once more. -/
theorem cmdList_cursor_error (env : Env) (o : cliOptions) (data outputJSON : Bool)
    (cts rids wids uids : List String) (client : Client) (p1 : Proc)
    (pre : List Record) (e : String) (post : List (Except String Record))
    (hc : getClient env o Proc.init = .ok client p1) :
    client.Query ⟨cts, rids, wids, uids, data⟩ = pre.map .ok ++ .error e :: post →
    cmdList env o data outputJSON cts rids wids uids Proc.init =
      .exit 1 ⟨p1.stdout ++
          (if outputJSON then
            match pre with
            | [] => ""
            | r :: rs =>
              "[\n" ++ ("  " ++ (env.MarshalIndent r "  " "  ").1)
                ++ String.join (rs.map fun x =>
                    ",\n" ++ ("  " ++ (env.MarshalIndent x "  " "  ").1))
          else
            String.join (pre.map fun r =>
              r.Meta.RecordID
                ++ String.mk (List.replicate (40 - r.Meta.RecordID.length) ' ')
                ++ " " ++ r.Meta.Type_ ++ "\n")),
        p1.stderr ++ ("e3db-cli: ls: " ++ e ++ "\n"),
        p1.calls ++ Call.Query ⟨cts, rids, wids, uids, data⟩ ::
          (List.replicate (pre.length + 1) [Call.CursorNext, Call.CursorGet]).flatten⟩ := by
  intro hq
  rw [cmdList_run env o data outputJSON cts rids wids uids client p1 hc, hq]
  cases outputJSON with
  | true =>
    cases pre with
    | nil => simp [listLoop_error]
    | cons r rs =>
      simp only [List.map_cons, List.cons_append, listLoop_json_ok, listLoop_json_rest,
        listLoop_error]
      have hcomm := flatten_replicate_comm rs.length [Call.CursorNext, Call.CursorGet]
      simp only [List.cons_append, List.nil_append] at hcomm
      simp [String.append_assoc, List.replicate_succ, hcomm]
  | false =>
    simp only [listLoop_table_rest, listLoop_error]
    have hcomm := flatten_replicate_comm pre.length [Call.CursorNext, Call.CursorGet]
    simp only [List.cons_append, List.nil_append] at hcomm
    simp [List.replicate_succ, hcomm]

/-- C9, at a cursor that fails on its second element, in JSON mode. -/
theorem cmdList_cursor_error_witness :
    cmdList brokenCursorEnv ⟨false, ""⟩ false true [] [] [] [] Proc.init =
      .exit 1 ⟨"[\n  \x7b\n    \"record_id\": \"A\"\n  \x7d",
        "e3db-cli: ls: connection reset\n",
        [.GetDefaultClient, .Query ⟨[], [], [], [], false⟩, .CursorNext, .CursorGet,
         .CursorNext, .CursorGet]⟩ :=
  cmdList_cursor_error brokenCursorEnv ⟨false, ""⟩ false true [] [] [] [] brokenCursorClient
    ⟨"", "", [.GetDefaultClient]⟩ [noteA] "connection reset" [.ok noteB] rfl rfl

/-! ## The read command -/

/-- C4, as the code has it: the identifiers are fetched one at a time in the
order given.  Let `done` be the identifiers that come first, each with the
record its fetch returns, and let every one of these records be encoded
without error; let the step for the next identifier `b` fail, either in its
fetch or in the JSON encoding of the fetched record.  Then the process logs
that error and ends with exit status 1: exactly the records of `done` have
been printed, in order, and the fetches made are those of `done` and of `b`,
none for a later identifier.  An identifier may occur more than once: every
fetch is answered on its own. -/
theorem cmdRead_stops_at_first_failure (env : Env) (o : cliOptions) (client : Client)
    (p1 : Proc) (done : List (String × Record)) (b e : String) (post : List String)
    (hc : getClient env o Proc.init = .ok client p1)
    (hdone : ∀ i recordID record, done[i]? = some (recordID, record) →
      client.Read i recordID = .ok record ∧
        (env.MarshalIndent record "" "  ").2 = none)
    (hb : client.Read done.length b = .error e ∨
      ∃ record, client.Read done.length b = .ok record ∧
        (env.MarshalIndent record "" "  ").2 = some e) :
    cmdRead env o (done.map Prod.fst ++ b :: post) Proc.init =
      .exit 1 ⟨p1.stdout ++ String.join (done.map fun x =>
            (env.MarshalIndent x.2 "" "  ").1 ++ "\n"),
        p1.stderr ++ logLine env e,
        p1.calls ++ (done.map Prod.fst ++ [b]).map .Read⟩ := by
  have hdone0 : ∀ i recordID record, done[i]? = some (recordID, record) →
      client.Read (0 + i) recordID = .ok record ∧
        (env.MarshalIndent record "" "  ").2 = none := by
    intro i recordID record hi
    rw [Nat.zero_add]
    exact hdone i recordID record hi
  simp only [cmdRead, bind_run, hc]
  rw [readLoop_fetched env client done (b :: post) 0 hdone0,
    readLoop_failure env client (0 + done.length) b e post (by rw [Nat.zero_add]; exact hb)]
  simp

/-- C4 as amended, for `A`, `A`, `C` at a client that can read `A` only once:
`A` is printed once, the failure of its second fetch ends the process, `C` is
never fetched. -/
theorem cmdRead_stops_at_first_failure_witness :
    cmdRead readOnceEnv ⟨false, ""⟩ ["A", "A", "C"] Proc.init =
      .exit 1 ⟨"\x7b\n  \"record_id\": \"A\"\n\x7d\n",
        "2017/06/01 12:00:00 record not found\n",
        [.GetDefaultClient, .Read "A", .Read "A"]⟩ :=
  cmdRead_stops_at_first_failure readOnceEnv ⟨false, ""⟩ readOnceClient
    ⟨"", "", [.GetDefaultClient]⟩ [("A", noteA)] "A" "record not found" ["C"] rfl
    (by
      intro i recordID record hi
      cases i with
      | zero =>
        simp only [List.getElem?_cons_zero, Option.some.injEq, Prod.mk.injEq] at hi
        obtain ⟨h1, h2⟩ := hi
        subst h1 h2
        exact ⟨rfl, rfl⟩
      | succ i => simp at hi)
    (Or.inl rfl)

/-- C4 fails as stated: the fetch of `A` succeeds and the fetch of `B` would
fail, so the first failing fetch is that of `B`; but the JSON encoding of `A`
fails, and the process exits there, with `A` not printed and `B` never
fetched. -/
theorem cmdRead_encoding_failure_ends_earlier :
    sampleClient.Read 0 "A" = .ok noteA
      ∧ sampleClient.Read 1 "B" = .error "record not found"
      ∧ cmdRead encodeFailsEnv ⟨false, ""⟩ ["A", "B"] Proc.init =
          .exit 1 ⟨"", "2017/06/01 12:00:00 json: unsupported value\n",
            [.GetDefaultClient, .Read "A"]⟩ :=
  ⟨rfl, rfl, rfl⟩

/-! ## The write command -/

/-- C5, as the code has it: for every record type and every payload whose
decoding into the new record's data fails, the write command writes the decode
error to standard error with the command prefix, then makes exactly one write
call, with the new record holding the data as the decoder left it, and prints
the identifier that call returns; it returns normally.  When the decoder has
left the data untouched, the record written is the new record as the client
made it. -/
theorem cmdWrite_decode_failure (env : Env) (o : cliOptions) (recordType payload : String)
    (client : Client) (p1 : Proc) (record : Record) (d : Data) (derr : String)
    (id : String) (werr : Option String)
    (hc : getClient env o Proc.init = .ok client p1)
    (hrec : client.NewRecord recordType = record)
    (hdec : env.Decode payload record.Data = (d, some derr))
    (hw : client.Write { record with Data := d } = (id, werr)) :
    cmdWrite env o recordType payload Proc.init =
        .ok () ⟨p1.stdout ++ (id ++ "\n"),
          p1.stderr ++ ("e3db-cli: write: " ++ derr ++ "\n")
            ++ (match werr with
                | some err => "e3db-cli: write: " ++ err ++ "\n"
                | none => ""),
          p1.calls ++ [.NewRecord recordType, .Write { record with Data := d }]⟩
      ∧ (d = record.Data → ({ record with Data := d } : Record) = record) := by
  refine ⟨?_, ?_⟩
  · rw [cmdWrite_run env o recordType payload client p1 record d (some derr) id werr
      hc hrec hdec hw]
  · intro h
    rw [h]

/-- C5 as amended, for a payload the decoder rejects without touching the
data: the record is written with its data empty and the identifier is
printed. -/
theorem cmdWrite_decode_failure_witness :
    cmdWrite sampleEnv ⟨false, ""⟩ "note" "oops" Proc.init =
      .ok () ⟨"id-new\n", "e3db-cli: write: unexpected end of JSON input\n",
        [.GetDefaultClient, .NewRecord "note",
         .Write ⟨⟨"", "note", "writer-1", "writer-1"⟩, []⟩]⟩ :=
  (cmdWrite_decode_failure sampleEnv ⟨false, ""⟩ "note" "oops" sampleClient
    ⟨"", "", [.GetDefaultClient]⟩ ⟨⟨"", "note", "writer-1", "writer-1"⟩, []⟩ []
    "unexpected end of JSON input" "id-new" none rfl rfl rfl rfl).1

/-- C5 fails as stated: the payload with a string member and an array member
fails to decode, the new record's data was empty, and yet the one write call
is made with the data the decoder had stored when it reported the error. -/
theorem cmdWrite_decode_failure_keeps_stored_members :
    (sampleEnv.Decode "\x7b\"a\":\"x\",\"b\":[]\x7d" (sampleClient.NewRecord "note").Data).2 =
        some "json: cannot unmarshal array into Go value of type string"
      ∧ (sampleClient.NewRecord "note").Data = []
      ∧ (cmdWrite sampleEnv ⟨false, ""⟩ "note" "\x7b\"a\":\"x\",\"b\":[]\x7d" Proc.init).proc.calls =
          [.GetDefaultClient, .NewRecord "note",
           .Write ⟨⟨"", "note", "writer-1", "writer-1"⟩, [("a", "x"), ("b", "")]⟩] := by
  decide

/-- C10: for every run of the write command in which the write call fails, the
error is written to standard error once, with the command prefix (after the
decode error, if there was one); the command goes on to print one line holding
the identifier the call returned, and returns normally, with exit status 0.
The write call is made once. -/
theorem cmdWrite_failure_not_fatal (env : Env) (o : cliOptions)
    (recordType payload : String) (client : Client) (p1 : Proc) (record : Record)
    (d : Data) (derr : Option String) (id err : String)
    (hc : getClient env o Proc.init = .ok client p1)
    (hrec : client.NewRecord recordType = record)
    (hdec : env.Decode payload record.Data = (d, derr))
    (hw : client.Write { record with Data := d } = (id, some err)) :
    cmdWrite env o recordType payload Proc.init =
        .ok () ⟨p1.stdout ++ (id ++ "\n"),
          p1.stderr
            ++ (match derr with
                | some msg => "e3db-cli: write: " ++ msg ++ "\n"
                | none => "")
            ++ ("e3db-cli: write: " ++ err ++ "\n"),
          p1.calls ++ [.NewRecord recordType, .Write { record with Data := d }]⟩
      ∧ (cmdWrite env o recordType payload Proc.init).status = 0 := by
  have hrun := cmdWrite_run env o recordType payload client p1 record d derr id (some err)
    hc hrec hdec hw
  refine ⟨hrun, ?_⟩
  rw [hrun]
  rfl

/-- C10, at a client that refuses writes: the refusal is reported, an empty
identifier line is printed, and the command returns normally. -/
theorem cmdWrite_failure_not_fatal_witness :
    cmdWrite readOnlyEnv ⟨false, ""⟩ "note" "\x7b\x7d" Proc.init =
      .ok () ⟨"\n", "e3db-cli: write: write refused\n",
        [.GetDefaultClient, .NewRecord "note",
         .Write ⟨⟨"", "note", "writer-1", "writer-1"⟩, []⟩]⟩ :=
  (cmdWrite_failure_not_fatal readOnlyEnv ⟨false, ""⟩ "note" "\x7b\x7d" readOnlyClient
    ⟨"", "", [.GetDefaultClient]⟩ ⟨⟨"", "note", "writer-1", "writer-1"⟩, []⟩ [] none
    "" "write refused" rfl rfl rfl rfl).1

end E3dbCli
